import Mathlib

/-!
The usbioboard_exporter: register protocol, pin topology, initialisation and polling

A shallow embedding of `ioboard/exporter.go` and `utils/utils.go`.

Conventions of the embedding.

* A Go `byte` is a `Nat`; where the source adds two bytes the sum is reduced
  `% 256`, as Go does.
* A Go `string` is its sequence of bytes (`List Nat`): `len(name)` is the length
  of that list and `name[0]` its first element.
* A Go `(byte, error)` result is a pair `Nat × Option Error`; `none` is `nil`.
* The HID device, the metrics registry and the stop channel are external
  collaborators. They are an arbitrary deterministic environment `Env σ` over an
  arbitrary state type `σ`; every frame handed to `dev.Write` is recorded in
  `World.frames`, oldest first.
* Log calls have no effect on control flow or data and are left out.
-/

namespace Ioboard

/-! ## Constants (`exporter.go`, lines 12-19) -/

def cmdGetRegBit : Nat := 0x9a
def cmdSetRegBit : Nat := 0x9b

def regAnsel : Nat := 0x5b
def regTris : Nat := 0x92
def regPort : Nat := 0x80
def regIntCon2 : Nat := 0xf1
def regWpuB : Nat := 0x85

/-! ## Pin topology rules (`exporter.go`, lines 129-175) -/

/-- The function `portIndex(name string) byte`; the string is given by its bytes,
`'a' = 97`, `'e' = 101`, `'A' = 65`, `'E' = 69`. -/
def portIndex (name : List Nat) : Nat :=
  match name with
  | [c] =>
    if c ≥ 97 ∧ c ≤ 101 then c - 97
    else if c ≥ 65 ∧ c ≤ 69 then c - 65
    else 255
  | _ => 255

/-- The function `isPinAllowed(port, pin byte) bool`. -/
def isPinAllowed (port pin : Nat) : Bool :=
  if pin < 0 ∨ pin > 7 then false
  else if port = 2 ∧ (pin ≥ 3 ∧ pin ≤ 5) then false
  else if port = 4 ∧ pin > 3 then false
  else true

/-- The function `isPinWired(port, pin byte) bool`. -/
def isPinWired (port pin : Nat) : Bool :=
  if !isPinAllowed port pin then false
  else if port = 2 ∧ pin = 2 then false
  else if port = 3 ∧ (pin ≥ 1 ∧ pin ≤ 3) then false
  else if port = 4 ∧ pin = 3 then false
  else true

/-! ## External collaborators -/

/-- Errors the code distinguishes: an error returned by the transport, the
`errors.New("invalid data")` of the protocol driver, and `configError`. -/
inductive Error where
  | transport
  | invalidData
  | configError
deriving DecidableEq, Repr

/-- The collaborators of one exporter, over an arbitrary state `σ`.
`write` is `dev.Write(msg, 100ms)`, `read` is `dev.Read(n, 100ms)`; `find` tells
whether `findIoBoard(bus, device)` returns a device, `openDev` is `dev.Open()`,
`closeDev` is `dev.Close()`; `register` is `prometheus.MustRegister` of the gauge
with the given name, help and constant labels (`none`: it panics); `waitFor` is
`utils.WaitFor(e.stopChan, delay)` (`true`: stop requested). -/
structure Env (σ : Type) where
  find : σ → Int → Int → Bool
  openDev : σ → σ × Option Error
  closeDev : σ → σ
  write : σ → List Nat → σ × Option Error
  read : σ → Nat → σ × Except Error (List Nat)
  register : σ → List Nat → List Nat → List (List Nat × List Nat) → Option σ
  waitFor : σ → Int → σ × Bool

/-- The collaborators' state together with the frames written to the device so
far, oldest first. -/
structure World (σ : Type) where
  dev : σ
  frames : List (List Nat)

/-! ## Data model (`exporter.go`, lines 23-54) -/

structure PinConfig where
  Name : List Nat
  Help : List Nat
  Port : List Nat
  Pin : Nat
  PullUp : Bool
  Revert : Bool
  Labels : List (List Nat × List Nat)

structure Config where
  Bus : Int
  Device : Int
  Prefix : List Nat
  ReadDelayMs : Int
  Pins : List PinConfig

/-- The record `pinData`; `value` is the number currently held by the pin's gauge
(the value last passed to `p.value.Set`, `0` for a new gauge). -/
structure PinData where
  port : Nat
  pin : Nat
  revert : Bool
  value : Nat
deriving DecidableEq, Repr

/-! ## Register protocol driver (`exporter.go`, lines 89-127) -/

/-- The frame built by `setRegBit`. -/
def setFrame (reg regBit bVal : Nat) : List Nat :=
  [cmdSetRegBit, 0, 0, 0, 0, 0, 0, 0, 0, 0, reg, regBit, bVal, 0]

/-- The frame built by `getRegBit`. -/
def getFrame (reg regBit : Nat) : List Nat :=
  [cmdGetRegBit, 0, 0, 0, 0, 0, 0, 0, 0, 0, reg, regBit, 0, 0]

/-- The common body of `setRegBit` and `getRegBit` after the frame is built:
write it, read up to 64 bytes, return byte 1 of the answer. -/
def exchange {σ : Type} (env : Env σ) (w : World σ) (msg : List Nat) :
    (Nat × Option Error) × World σ :=
  match env.write w.dev msg with
  | (d1, some err) => ((0, some err), ⟨d1, w.frames ++ [msg]⟩)
  | (d1, none) =>
    match env.read d1 64 with
    | (d2, .error err) => ((0, some err), ⟨d2, w.frames ++ [msg]⟩)
    | (d2, .ok resp) =>
      if resp.length < 2 then ((0, some Error.invalidData), ⟨d2, w.frames ++ [msg]⟩)
      else ((resp.getD 1 0, none), ⟨d2, w.frames ++ [msg]⟩)

/-- The method `setRegBit(reg, regBit, bVal byte) (byte, error)`. -/
def setRegBit {σ : Type} (env : Env σ) (w : World σ) (reg regBit bVal : Nat) :
    (Nat × Option Error) × World σ :=
  exchange env w (setFrame reg regBit bVal)

/-- The method `getRegBit(reg, regBit byte) (byte, error)`. -/
def getRegBit {σ : Type} (env : Env σ) (w : World σ) (reg regBit : Nat) :
    (Nat × Option Error) × World σ :=
  exchange env w (getFrame reg regBit)

/-! ## `Exporter.Run` (`exporter.go`, lines 177-300) -/

/-- How a call of `Run` ends: it returns an error or `nil`, it panics, or it is
still polling when the model's fuel is spent. -/
inductive RunResult where
  | returned (err : Option Error)
  | panicked
  | running
deriving DecidableEq, Repr

/-- The local state of the initialisation loop. -/
structure InitState (σ : Type) where
  w : World σ
  pullUpEnabled : Bool
  pins : List PinData

/-- The block `if c.PullUp { ... }` (lines 239-260). `none`: the loop body goes on. -/
def pullUp {σ : Type} (env : Env σ) (s : InitState σ) (portIdx : Nat) (c : PinConfig) :
    Option RunResult × InitState σ :=
  if c.PullUp then
    if portIdx != 1 then (some (.returned (some .configError)), s)
    else
      let r : Option RunResult × InitState σ :=
        if !s.pullUpEnabled then
          let g := setRegBit env s.w regIntCon2 7 0
          if g.1.2.isSome then
            (some (.returned (some .configError)), { s with w := g.2, pullUpEnabled := true })
          else (none, { s with w := g.2, pullUpEnabled := true })
        else (none, s)
      match r with
      | (some e, s1) => (some e, s1)
      | (none, s1) =>
        let g := setRegBit env s1.w regWpuB portIdx 1
        if g.1.2.isSome then (some (.returned (some .configError)), { s1 with w := g.2 })
        else (none, { s1 with w := g.2 })
  else (none, s)

/-- One iteration of `for _, c := range e.cfg.Pins` (lines 211-273). The record
`p` is appended to `pins` once its fields are set; `pins` is not used on the
returning paths. -/
def initPin {σ : Type} (env : Env σ) (cfg : Config) (s : InitState σ) (c : PinConfig) :
    Option RunResult × InitState σ :=
  let portIdx := portIndex c.Port
  if portIdx < 0 then (some (.returned (some .configError)), s)
  else
    match env.register s.w.dev (cfg.Prefix ++ [95] ++ c.Name) c.Help c.Labels with
    | none => (some .panicked, s)
    | some d =>
      let p : PinData := { port := portIdx, pin := c.Pin, revert := c.Revert, value := 0 }
      let s0 : InitState σ := { s with w := { s.w with dev := d }, pins := s.pins ++ [p] }
      if !isPinAllowed portIdx c.Pin then (some (.returned (some .configError)), s0)
      else
        match pullUp env s0 portIdx c with
        | (some e, s1) => (some e, s1)
        | (none, s1) =>
          let a := setRegBit env s1.w ((regAnsel + portIdx) % 256) c.Pin 0
          if a.1.2.isSome then (some (.returned (some .configError)), { s1 with w := a.2 })
          else
            let t := setRegBit env a.2 ((regTris + portIdx) % 256) c.Pin 1
            if t.1.2.isSome then (some (.returned (some .configError)), { s1 with w := t.2 })
            else (none, { s1 with w := t.2 })

/-- The whole initialisation loop. `none`: every pin was set up. -/
def initPins {σ : Type} (env : Env σ) (cfg : Config) :
    InitState σ → List PinConfig → Option RunResult × InitState σ
  | s, [] => (none, s)
  | s, c :: cs =>
    match initPin env cfg s c with
    | (some e, s1) => (some e, s1)
    | (none, s1) => initPins env cfg s1 cs

/-- The body of `for _, p := range pins` in the poll loop (lines 277-292). -/
def pollPin {σ : Type} (env : Env σ) (w : World σ) (p : PinData) : World σ × PinData :=
  let g := getRegBit env w ((regPort + p.port) % 256) p.pin
  let v := g.1.1
  let v := if v != 0 then 1 else v
  let v := if p.revert then v ^^^ 1 else v
  (g.2, { p with value := v })

/-- One sweep over the pins, in order. -/
def sweep {σ : Type} (env : Env σ) : World σ → List PinData → World σ × List PinData
  | w, [] => (w, [])
  | w, p :: ps =>
    let r := pollPin env w p
    let rest := sweep env r.1 ps
    (rest.1, r.2 :: rest.2)

/-- The outer `for { ... }` (lines 275-299), at most `fuel` sweeps. -/
def pollLoop {σ : Type} (env : Env σ) (cfg : Config) :
    Nat → World σ → List PinData → RunResult × World σ × List PinData
  | 0, w, pins => (.running, w, pins)
  | fuel + 1, w, pins =>
    let r := sweep env w pins
    match env.waitFor r.1.dev cfg.ReadDelayMs with
    | (d, true) => (.returned none, { r.1 with dev := d }, r.2)
    | (d, false) => pollLoop env cfg fuel { r.1 with dev := d } r.2

/-- The method `Run`, started in collaborator state `d`, polling at most `fuel`
sweeps. The result carries the frames written and the pins' gauges. -/
def Run {σ : Type} (env : Env σ) (cfg : Config) (fuel : Nat) (d : σ) :
    RunResult × World σ × List PinData :=
  if !env.find d cfg.Bus cfg.Device then (.returned (some .configError), ⟨d, []⟩, [])
  else
    match env.openDev d with
    | (d1, some _) => (.returned (some .configError), ⟨d1, []⟩, [])
    | (d1, none) =>
      match initPins env cfg { w := ⟨d1, []⟩, pullUpEnabled := false, pins := [] } cfg.Pins with
      | (some e, s) => (e, { s.w with dev := env.closeDev s.w.dev }, s.pins)
      | (none, s) =>
        match pollLoop env cfg fuel s.w s.pins with
        | (.running, w, pins) => (.running, w, pins)
        | (e, w, pins) => (e, { w with dev := env.closeDev w.dev }, pins)

/-! ## Vocabulary for the stated properties -/

/-- The global pull-up enable write, `setRegBit(regIntCon2, 7, 0)`. -/
def enableFrame : List Nat := setFrame regIntCon2 7 0

/-- The frame `f` is a `setRegBit` frame addressed to register `reg`. -/
def writesReg (reg : Nat) (f : List Nat) : Prop :=
  f.head? = some cmdSetRegBit ∧ f[10]? = some reg

instance (reg : Nat) (f : List Nat) : Decidable (writesReg reg f) := by
  unfold writesReg; infer_instance

/-- The frames a pin's iteration writes when every request is answered, given
the value of `pullUpEnabled` when the iteration starts. -/
def pinFrames (enabled : Bool) (c : PinConfig) : List (List Nat) :=
  (if c.PullUp then
    (if enabled then [] else [enableFrame]) ++ [setFrame regWpuB (portIndex c.Port) 1]
   else []) ++
  [setFrame ((regAnsel + portIndex c.Port) % 256) c.Pin 0,
   setFrame ((regTris + portIndex c.Port) % 256) c.Pin 1]

/-- The frames of a whole pin list, pin after pin. -/
def allFrames : Bool → List PinConfig → List (List Nat)
  | _, [] => []
  | enabled, c :: cs => pinFrames enabled c ++ allFrames (enabled || c.PullUp) cs

/-! ## Concrete collaborators used to run the model -/

/-- A board that is found, opens, accepts every write and answers every read
with the two bytes `[0, b]`; every gauge registers; no stop is requested. -/
def answering (b : Nat) : Env Unit where
  find := fun _ _ _ => true
  openDev := fun d => (d, none)
  closeDev := fun d => d
  write := fun d _ => (d, none)
  read := fun d _ => (d, .ok [0, b])
  register := fun d _ _ _ => some d
  waitFor := fun d _ => (d, false)

/-- A board whose state counts the reads made so far; the read with number `k`
(from 0) is answered with `[0, 1]` unless `k` is in `bad`, when it fails. -/
def flaky (bad : List Nat) : Env Nat where
  find := fun _ _ _ => true
  openDev := fun d => (d, none)
  closeDev := fun d => d
  write := fun d _ => (d, none)
  read := fun d _ => (d + 1, if d ∈ bad then .error Error.transport else .ok [0, 1])
  register := fun d _ _ _ => some d
  waitFor := fun d _ => (d, false)

/-- A pin configuration with the given port letter, pin number and pull-up flag. -/
def mkPin (port : List Nat) (pin : Nat) (pullUp : Bool) : PinConfig :=
  { Name := [], Help := [], Port := port, Pin := pin, PullUp := pullUp, Revert := false,
    Labels := [] }

/-- A board configuration with the defaults of `UnmarshalYAML` and the given pins. -/
def mkConfig (pins : List PinConfig) : Config :=
  { Bus := 0, Device := 0, Prefix := [105, 111, 98, 111, 97, 114, 100], ReadDelayMs := 1000,
    Pins := pins }

/-- A board like `answering b` in front of a registry that holds the names
registered so far and, like the Prometheus registry, refuses a name it already
holds (`MustRegister` then panics). -/
def strict (b : Nat) : Env (List (List Nat)) where
  find := fun _ _ _ => true
  openDev := fun d => (d, none)
  closeDev := fun d => d
  write := fun d _ => (d, none)
  read := fun d _ => (d, .ok [0, b])
  register := fun d name _ _ => if name ∈ d then none else some (d ++ [name])
  waitFor := fun d _ => (d, false)

/-- A pin configuration with a name of its own. -/
def namedPin (name port : List Nat) (pin : Nat) (pullUp : Bool) : PinConfig :=
  { Name := name, Help := [], Port := port, Pin := pin, PullUp := pullUp, Revert := false,
    Labels := [] }

end Ioboard

/-! ## `utils.ActionResult` (`utils.go`, lines 21-47) -/

namespace Utils

/-- Error values sent over the channel: the sentinel `successErr` or any
other error, told apart by a number. -/
inductive Err where
  | successErr
  | other (id : Nat)
deriving DecidableEq, Repr

/-- The channel made by `make(ActionResult)`: it has no buffer, so all there is
to its state is whether a goroutine is blocked receiving from it (`receiving`)
and the value the receiver was handed (`got`). -/
structure ActionResult where
  receiving : Bool
  got : Option Err
deriving DecidableEq, Repr

/-- The function `NewActionResult`. -/
def NewActionResult : ActionResult := { receiving := false, got := none }

/-- The method `Error`: `select { case e <- err: default: }`. A send on a channel
without buffer can proceed only when a receiver is ready; otherwise the
`default` case is taken and the value is dropped. -/
def ActionResult.Error (e : ActionResult) (err : Err) : ActionResult :=
  if e.receiving then { receiving := false, got := some err } else e

/-- The method `Success`. -/
def ActionResult.Success (e : ActionResult) : ActionResult :=
  e.Error Err.successErr

/-- The caller of `Result` reaches `err := <-e` and blocks there, nothing
received yet. -/
def ActionResult.receive (_e : ActionResult) : ActionResult :=
  { receiving := true, got := none }

/-- What the call of `Result` returns: `none` while it is still blocked,
`some none` for `nil`, `some (some err)` for an error. -/
def ActionResult.Result (e : ActionResult) : Option (Option Err) :=
  match e.got with
  | none => none
  | some err => if err = Err.successErr then some none else some (some err)

/-- The calls made on the channel in one process run, in the order in which
they take effect. -/
inductive Call where
  | error (err : Err)
  | success
  | result
deriving DecidableEq, Repr

/-- The effect of one call. -/
def step (e : ActionResult) : Call → ActionResult
  | .error err => e.Error err
  | .success => e.Success
  | .result => e.receive

/-- The effect of a sequence of calls on a new channel. -/
def run (calls : List Call) : ActionResult :=
  calls.foldl step NewActionResult

/-- The outcome a call reports, if it is a report. -/
def Call.reported : Call → Option Err
  | .error err => some err
  | .success => some Err.successErr
  | .result => none

/-- The first outcome reported in a sequence of calls. -/
def firstReported (calls : List Call) : Option Err :=
  calls.findSome? Call.reported

end Utils

/-! # Theorems -/

namespace Ioboard

/-! ## Pin topology -/

theorem portIndex_range (name : List Nat) : portIndex name ≤ 4 ∨ portIndex name = 255 := by
  unfold portIndex
  split
  · split
    · omega
    · split
      · omega
      · omega
  · omega

/-- C7. For every string `s` and every offset `k ≤ 4`: if `s` is the single letter
number `k` of `A`-`E` (byte `65 + k`) or of `a`-`e` (byte `97 + k`) then
`portIndex s = k`, the same for both cases of the letter; and if `s` is none of
these ten one-letter strings then `portIndex s` is the sentinel 255, which is
outside `[0, 4]`. -/
theorem C7_portIndex_letters (s : List Nat) :
    (∀ k, k ≤ 4 → (s = [65 + k] ∨ s = [97 + k]) → portIndex s = k) ∧
    ((∀ k, k ≤ 4 → s ≠ [65 + k] ∧ s ≠ [97 + k]) → portIndex s = 255 ∧ ¬ portIndex s ≤ 4) := by
  constructor
  · intro k hk h
    rcases h with h | h <;> subst h <;> simp only [portIndex] <;> split_ifs <;> omega
  · intro h
    have key : portIndex s = 255 := by
      unfold portIndex
      split
      · rename_i c
        split_ifs with h1 h2
        · exact absurd (by congr 1; omega : [c] = [97 + (c - 97)]) (h (c - 97) (by omega)).2
        · exact absurd (by congr 1; omega : [c] = [65 + (c - 65)]) (h (c - 65) (by omega)).1
        · rfl
      · rfl
    omega

/-- C7, run on the strings "B" and "é" (two bytes). -/
theorem C7_portIndex_letters_witness :
    portIndex [66] = 1 ∧ (portIndex [195, 169] = 255 ∧ ¬ portIndex [195, 169] ≤ 4) :=
  ⟨(C7_portIndex_letters [66]).1 1 (by decide) (Or.inl rfl),
   (C7_portIndex_letters [195, 169]).2 (fun k _ => ⟨by simp, by simp⟩)⟩

/-- C8. For every byte pair, `isPinAllowed port pin` is false exactly when
`pin > 7`, or `port = 2` and `3 ≤ pin ≤ 5`, or `port = 4` and `pin > 3`, and true
otherwise; the listed pairs have the listed values. -/
theorem C8_isPinAllowed_table :
    (∀ port pin : Nat, (isPinAllowed port pin = false ↔
        (pin > 7 ∨ (port = 2 ∧ 3 ≤ pin ∧ pin ≤ 5) ∨ (port = 4 ∧ pin > 3))) ∧
      (isPinAllowed port pin = true ↔
        ¬ (pin > 7 ∨ (port = 2 ∧ 3 ≤ pin ∧ pin ≤ 5) ∨ (port = 4 ∧ pin > 3)))) ∧
    isPinAllowed 2 3 = false ∧ isPinAllowed 2 4 = false ∧ isPinAllowed 2 5 = false ∧
    isPinAllowed 4 4 = false ∧ isPinAllowed 4 5 = false ∧ isPinAllowed 4 6 = false ∧
    isPinAllowed 4 7 = false ∧
    isPinAllowed 2 2 = true ∧ isPinAllowed 2 6 = true ∧ isPinAllowed 4 3 = true := by
  refine ⟨?_, by decide, by decide, by decide, by decide, by decide, by decide, by decide,
    by decide, by decide, by decide⟩
  intro port pin
  unfold isPinAllowed
  constructor <;> split_ifs <;> simp <;> omega

/-- C9. For every byte pair, `isPinWired` holds exactly when `isPinAllowed` holds
and the pair is none of (2,2), (3,1), (3,2), (3,3), (4,3); so `isPinWired` implies
`isPinAllowed`, the five pairs are allowed but not wired, and (3,0) and (3,4) are
wired. -/
theorem C9_isPinWired_refines :
    (∀ port pin : Nat, isPinWired port pin = true ↔
      (isPinAllowed port pin = true ∧
        (port, pin) ∉ [(2, 2), (3, 1), (3, 2), (3, 3), (4, 3)])) ∧
    (∀ port pin : Nat, isPinWired port pin = true → isPinAllowed port pin = true) ∧
    (∀ q ∈ [(2, 2), (3, 1), (3, 2), (3, 3), (4, 3)],
      isPinAllowed q.1 q.2 = true ∧ isPinWired q.1 q.2 = false) ∧
    isPinWired 3 0 = true ∧ isPinWired 3 4 = true := by
  have main : ∀ port pin : Nat, isPinWired port pin = true ↔
      (isPinAllowed port pin = true ∧
        (port, pin) ∉ [(2, 2), (3, 1), (3, 2), (3, 3), (4, 3)]) := by
    intro port pin
    unfold isPinWired
    cases h : isPinAllowed port pin
    · simp
    · simp only [Bool.not_true, Bool.false_eq_true, if_false, List.mem_cons, Prod.mk.injEq,
        List.mem_singleton, List.not_mem_nil, or_false, true_and]
      split_ifs <;> simp <;> omega
  refine ⟨main, fun port pin h => ((main port pin).1 h).1, by decide, by decide, by decide⟩

/-! ## Register protocol driver -/

theorem exchange_frames {σ : Type} (env : Env σ) (w : World σ) (msg : List Nat) :
    (exchange env w msg).2.frames = w.frames ++ [msg] := by
  unfold exchange
  split
  · rfl
  · split
    · rfl
    · split <;> rfl

/-- C3, as the code has it. For all bytes `reg`, `bit`, `val` and every transport,
`setRegBit` hands the transport exactly one frame, the 14 bytes
`[0x9b, 0,0,0,0,0,0,0,0,0, reg, bit, val, 0]`, and `getRegBit` exactly one frame,
the 14 bytes `[0x9a, 0,0,0,0,0,0,0,0,0, reg, bit, 0, 0]`: header `0x9b` selects
set and header `0x9a` selects get. -/
theorem C3_frames_amended {σ : Type} (env : Env σ) (w : World σ) (reg bit val : Nat) :
    (setRegBit env w reg bit val).2.frames =
        w.frames ++ [[0x9b, 0, 0, 0, 0, 0, 0, 0, 0, 0, reg, bit, val, 0]] ∧
    (getRegBit env w reg bit).2.frames =
        w.frames ++ [[0x9a, 0, 0, 0, 0, 0, 0, 0, 0, 0, reg, bit, 0, 0]] ∧
    [0x9b, 0, 0, 0, 0, 0, 0, 0, 0, 0, reg, bit, val, 0].length = 14 ∧
    [0x9a, 0, 0, 0, 0, 0, 0, 0, 0, 0, reg, bit, 0, 0].length = 14 := by
  refine ⟨?_, ?_, rfl, rfl⟩
  · rw [setRegBit, exchange_frames]; rfl
  · rw [getRegBit, exchange_frames]; rfl

/-- C3 as stated fails: on an answering board `setRegBit(0x80, 3, 1)` does not
write the frame with header `0x9a`, and `getRegBit(0x80, 3)` does not write the
frame with header `0x9b`. -/
theorem C3_frames_counterexample :
    (setRegBit (answering 1) ⟨(), []⟩ 0x80 3 1).2.frames ≠
        [[0x9a, 0, 0, 0, 0, 0, 0, 0, 0, 0, 0x80, 3, 1, 0]] ∧
    (getRegBit (answering 1) ⟨(), []⟩ 0x80 3).2.frames ≠
        [[0x9b, 0, 0, 0, 0, 0, 0, 0, 0, 0, 0x80, 3, 0, 0]] := by
  constructor <;> decide

/-! ## Poll loop -/

/-- C6. In the poll loop, when `getRegBit` succeeds and returns the byte `v`, the
value published to the pin's gauge is 0 or 1: 1 for `v ≠ 0` without revert, 0 for
`v ≠ 0` with revert, 0 for `v = 0` without revert, 1 for `v = 0` with revert. -/
theorem C6_published_value {σ : Type} (env : Env σ) (w : World σ) (p : PinData) (v : Nat)
    (h : (getRegBit env w ((regPort + p.port) % 256) p.pin).1 = (v, none)) :
    ((pollPin env w p).2.value = 0 ∨ (pollPin env w p).2.value = 1) ∧
    (v ≠ 0 → p.revert = false → (pollPin env w p).2.value = 1) ∧
    (v ≠ 0 → p.revert = true → (pollPin env w p).2.value = 0) ∧
    (v = 0 → p.revert = false → (pollPin env w p).2.value = 0) ∧
    (v = 0 → p.revert = true → (pollPin env w p).2.value = 1) := by
  have hv : (getRegBit env w ((regPort + p.port) % 256) p.pin).1.1 = v := by rw [h]
  simp only [pollPin, hv]
  by_cases h0 : v = 0 <;> cases hr : p.revert <;> simp [h0]

/-- C6, run on a board that answers `[0, 0x20]` for a pin with revert set. -/
theorem C6_published_value_witness :
    (getRegBit (answering 0x20) ⟨(), []⟩ ((regPort + 1) % 256) 4).1 = (0x20, none) ∧
    (pollPin (answering 0x20) ⟨(), []⟩ ⟨1, 4, true, 1⟩).2.value = 0 :=
  ⟨by decide,
   (C6_published_value (answering 0x20) ⟨(), []⟩ ⟨1, 4, true, 1⟩ 0x20 (by decide)).2.2.1
     (by decide) rfl⟩

theorem pollPin_frames {σ : Type} (env : Env σ) (w : World σ) (p : PinData) :
    (pollPin env w p).1.frames = w.frames ++ [getFrame ((regPort + p.port) % 256) p.pin] := by
  simp only [pollPin, getRegBit, exchange_frames]

/-- A sweep issues one `getRegBit` per pin, in the declared order, whatever the
transport answers. -/
theorem sweep_frames {σ : Type} (env : Env σ) (ps : List PinData) : ∀ w : World σ,
    (sweep env w ps).1.frames =
      w.frames ++ ps.map (fun p => getFrame ((regPort + p.port) % 256) p.pin) := by
  induction ps with
  | nil => intro w; simp [sweep]
  | cons p ps ih =>
    intro w
    simp only [sweep, ih, pollPin_frames, List.map_cons, List.append_assoc,
      List.singleton_append]

/-- When `getRegBit` fails in the poll loop, the gauge is still set: to 0 without
revert and to 1 with revert. -/
theorem pollPin_on_error {σ : Type} (env : Env σ) (w : World σ) (p : PinData) (err : Error)
    (h : (getRegBit env w ((regPort + p.port) % 256) p.pin).1 = (0, some err)) :
    (pollPin env w p).2.value = if p.revert then 1 else 0 := by
  have hv : (getRegBit env w ((regPort + p.port) % 256) p.pin).1.1 = 0 := by rw [h]
  simp only [pollPin, hv]
  cases p.revert <;> simp

/-- C2, the code at a failing input. Two pins of port A are swept twice on a board
whose third read (pin 0 in the second sweep) fails. After the first sweep both
gauges hold 1. In the second sweep `getRegBit` for pin 0 returns an error, yet
the gauge of pin 0 is set to 0 instead of keeping 1; pin 1 is still read (its
frame is written) and keeps 1. -/
theorem C2_read_error_overwrites :
    let pins : List PinData := [⟨0, 0, false, 0⟩, ⟨0, 1, false, 0⟩]
    let s1 := sweep (flaky [2]) ⟨0, []⟩ pins
    let s2 := sweep (flaky [2]) s1.1 s1.2
    s1.2.map PinData.value = [1, 1] ∧
    (getRegBit (flaky [2]) s1.1 ((regPort + 0) % 256) 0).1 = (0, some Error.transport) ∧
    s2.2.map PinData.value = [0, 1] ∧
    s2.1.frames = s1.1.frames ++ [getFrame 0x80 0, getFrame 0x80 1] := by
  decide

/-! ## `Run` on an invalid port letter -/

/-- C1, the code at a failing input. The only pin has port "F" (byte 70), pin 0,
no pull-up, and the board answers every request. `portIndex` gives 255, the test
`portIdx < 0` does not fire, and `Run` does not return the configuration error:
it programs registers `0x5a` and `0x91` for the pin and then polls register
`0x7f`, still running after one sweep. -/
theorem C1_invalid_port_not_rejected :
    portIndex [70] = 255 ∧
    Run (answering 0) (mkConfig [mkPin [70] 0 false]) 1 () =
      (RunResult.running,
       ⟨(), [setFrame 0x5a 0 0, setFrame 0x91 0 1, getFrame 0x7f 0]⟩,
       [⟨255, 0, false, 0⟩]) := by
  constructor
  · decide
  · rfl

/-! ## Initialisation -/

theorem setRegBit_frames {σ : Type} (env : Env σ) (w : World σ) (reg bit val : Nat) :
    (setRegBit env w reg bit val).2.frames = w.frames ++ [setFrame reg bit val] := by
  rw [setRegBit, exchange_frames]

theorem pullUp_ok {σ : Type} (env : Env σ) (s s1 : InitState σ) (portIdx : Nat)
    (c : PinConfig) (h : pullUp env s portIdx c = (none, s1)) :
    s1.w.frames = s.w.frames ++
        (if c.PullUp then
          (if s.pullUpEnabled then [] else [enableFrame]) ++ [setFrame regWpuB portIdx 1]
         else []) ∧
      s1.pullUpEnabled = (s.pullUpEnabled || c.PullUp) ∧
      (c.PullUp = true → portIdx = 1) := by
  unfold pullUp at h
  cases hp : c.PullUp
  · simp only [hp, Bool.false_eq_true, if_false] at h
    cases h
    simp
  · simp only [hp, if_true] at h
    by_cases h1 : portIdx = 1
    · subst h1
      cases he : s.pullUpEnabled
      · by_cases ha : (setRegBit env s.w regIntCon2 7 0).1.2.isSome = true
        · simp [he, ha] at h
        · by_cases hb : (setRegBit env (setRegBit env s.w regIntCon2 7 0).2
              regWpuB 1 1).1.2.isSome = true
          · simp [he, ha, hb] at h
          · simp [he, ha, hb] at h
            subst h
            simp [setRegBit_frames, enableFrame]
      · by_cases hb : (setRegBit env s.w regWpuB 1 1).1.2.isSome = true
        · simp [he, hb] at h
        · simp [he, hb] at h
          subst h
          simp [setRegBit_frames, he]
    · have h2 : (portIdx != 1) = true := by simpa using h1
      simp only [h2, if_true] at h
      cases h

theorem initPin_ok {σ : Type} (env : Env σ) (cfg : Config) (s s1 : InitState σ)
    (c : PinConfig) (h : initPin env cfg s c = (none, s1)) :
    s1.w.frames = s.w.frames ++ pinFrames s.pullUpEnabled c ∧
      s1.pullUpEnabled = (s.pullUpEnabled || c.PullUp) ∧
      (c.PullUp = true → portIndex c.Port = 1) := by
  unfold initPin at h
  simp only [Nat.not_lt_zero, if_false] at h
  split at h
  · cases h
  · rename_i d hd
    split_ifs at h with ha
    · cases h
    · split at h
      · cases h
      · rename_i s2 hs2
        have hp := pullUp_ok env _ s2 _ c hs2
        simp only at hp
        split_ifs at h with hb hc
        · cases h
        · cases h
        · cases h
          refine ⟨?_, hp.2.1, hp.2.2⟩
          simp [setRegBit_frames, pinFrames, hp.1]

theorem initPins_ok {σ : Type} (env : Env σ) (cfg : Config) (cs : List PinConfig) :
    ∀ s s1 : InitState σ, initPins env cfg s cs = (none, s1) →
      s1.w.frames = s.w.frames ++ allFrames s.pullUpEnabled cs := by
  induction cs with
  | nil =>
    intro s s1 h
    simp only [initPins] at h
    cases h
    simp [allFrames]
  | cons c cs ih =>
    intro s s1 h
    simp only [initPins] at h
    split at h
    · cases h
    · rename_i s2 hs2
      have h1 := initPin_ok env cfg s s2 c hs2
      have h2 := ih s2 s1 h
      rw [h2, h1.1, h1.2.1, allFrames, List.append_assoc]

theorem wpu_ne_enable (bit : Nat) : setFrame regWpuB bit 1 ≠ enableFrame := by
  simp [setFrame, enableFrame, regWpuB, regIntCon2]

theorem ansel_ne_enable (name : List Nat) (pin : Nat) :
    setFrame ((regAnsel + portIndex name) % 256) pin 0 ≠ enableFrame := by
  have hr := portIndex_range name
  simp only [setFrame, enableFrame, regAnsel, regIntCon2, ne_eq, List.cons.injEq, true_and,
    and_true, not_and]
  omega

theorem tris_ne_enable (reg pin : Nat) : setFrame reg pin 1 ≠ enableFrame := by
  simp [setFrame, enableFrame]

theorem enable_not_wpu : ¬ writesReg regWpuB enableFrame := by
  decide

theorem ansel_not_wpu (name : List Nat) (pin : Nat) :
    ¬ writesReg regWpuB (setFrame ((regAnsel + portIndex name) % 256) pin 0) := by
  have hr := portIndex_range name
  simp only [writesReg, setFrame, regAnsel, regWpuB, List.head?_cons, true_and]
  simp only [List.getElem?_cons_succ, List.getElem?_cons_zero, Option.some.injEq]
  omega

theorem tris_not_wpu (name : List Nat) (pin : Nat) :
    ¬ writesReg regWpuB (setFrame ((regTris + portIndex name) % 256) pin 1) := by
  have hr := portIndex_range name
  simp only [writesReg, setFrame, regTris, regWpuB, List.head?_cons, true_and]
  simp only [List.getElem?_cons_succ, List.getElem?_cons_zero, Option.some.injEq]
  omega

theorem pinFrames_count (enabled : Bool) (c : PinConfig) :
    (pinFrames enabled c).count enableFrame = if (!enabled && c.PullUp) then 1 else 0 := by
  have h1 := wpu_ne_enable (portIndex c.Port)
  have h2 := ansel_ne_enable c.Port c.Pin
  have h3 := tris_ne_enable ((regTris + portIndex c.Port) % 256) c.Pin
  unfold pinFrames
  cases enabled <;> cases c.PullUp <;>
    simp [List.count_cons, h1, h2, h3]

theorem allFrames_count (cs : List PinConfig) : ∀ enabled : Bool,
    (allFrames enabled cs).count enableFrame =
      if (!enabled && cs.any (fun c => c.PullUp)) then 1 else 0 := by
  induction cs with
  | nil => intro enabled; simp [allFrames]
  | cons c cs ih =>
    intro enabled
    rw [allFrames, List.count_append, pinFrames_count, ih]
    cases enabled <;> cases hp : c.PullUp <;> simp [hp]

theorem allFrames_order (cs : List PinConfig) :
    ∀ (i j : Nat) (f : List Nat), (allFrames false cs)[i]? = some enableFrame →
      (allFrames false cs)[j]? = some f → writesReg regWpuB f → i < j := by
  induction cs with
  | nil => intro i j f h; simp [allFrames] at h
  | cons c cs ih =>
    intro i j f hi hj hf
    have h1 := wpu_ne_enable (portIndex c.Port)
    have h2 := ansel_ne_enable c.Port c.Pin
    have h3 := tris_ne_enable ((regTris + portIndex c.Port) % 256) c.Pin
    have h4 := ansel_not_wpu c.Port c.Pin
    have h5 := tris_not_wpu c.Port c.Pin
    cases hp : c.PullUp
    · simp only [allFrames, pinFrames, hp, Bool.false_eq_true, if_false, List.nil_append,
        Bool.or_false, List.cons_append] at hi hj
      match i, j with
      | 0, _ => simp at hi; exact absurd hi h2
      | 1, _ => simp at hi; exact absurd hi h3
      | _, 0 => simp at hj; subst hj; exact absurd hf h4
      | _, 1 => simp at hj; subst hj; exact absurd hf h5
      | i + 2, j + 2 =>
        simp only [List.getElem?_cons_succ] at hi hj
        have := ih i j f hi hj hf
        omega
    · simp only [allFrames, pinFrames, hp, if_true, Bool.false_eq_true, if_false,
        Bool.or_true, List.cons_append, List.nil_append, List.append_assoc,
        List.singleton_append] at hi hj
      have hc := allFrames_count cs true
      simp only [Bool.not_true, Bool.false_and, Bool.false_eq_true, if_false] at hc
      have hn : enableFrame ∉ allFrames true cs := List.count_eq_zero.mp hc
      match i, j with
      | _, 0 => simp at hj; subst hj; exact absurd hf enable_not_wpu
      | 0, j + 1 => omega
      | 1, _ => simp at hi; exact absurd hi h1
      | 2, _ => simp at hi; exact absurd hi h2
      | 3, _ => simp at hi; exact absurd hi h3
      | i + 4, _ =>
        simp only [List.getElem?_cons_succ] at hi
        exact absurd (List.getElem?_mem hi) hn

/-- C4. When the initialisation loop of `Run` sets up every pin of the list
(every request was answered), the frames it wrote contain the global pull-up
enable write `setRegBit(0xf1, 7, 0)` exactly once if some pin requests pull-up
and not at all otherwise, and that write stands strictly before every write to
`WPU_B` (register `0x85`). -/
theorem C4_enable_once_before_wpu {σ : Type} (env : Env σ) (cfg : Config) (d : σ)
    (s1 : InitState σ)
    (h : initPins env cfg { w := ⟨d, []⟩, pullUpEnabled := false, pins := [] } cfg.Pins
      = (none, s1)) :
    enableFrame = setFrame 0xf1 7 0 ∧
    s1.w.frames.count enableFrame = (if cfg.Pins.any (fun c => c.PullUp) then 1 else 0) ∧
    ∀ (i j : Nat) (f : List Nat), s1.w.frames[i]? = some enableFrame →
      s1.w.frames[j]? = some f → writesReg 0x85 f → i < j := by
  have hf := initPins_ok env cfg cfg.Pins _ s1 h
  simp only [List.nil_append] at hf
  refine ⟨rfl, ?_, ?_⟩
  · rw [hf, allFrames_count]
    simp
  · rw [hf]
    exact allFrames_order cfg.Pins

/-- C4, run on two pull-up pins of port B (pins 0 and 1, named "a" and "b") on an
answering board whose registry refuses duplicate names: the enable write is the
first of the seven frames, before both `WPU_B` writes. -/
theorem C4_enable_once_before_wpu_witness :
    (initPins (strict 0) (mkConfig [namedPin [97] [66] 0 true, namedPin [98] [98] 1 true])
        { w := ⟨[], []⟩, pullUpEnabled := false, pins := [] }
        [namedPin [97] [66] 0 true, namedPin [98] [98] 1 true]).1 = none ∧
    (initPins (strict 0) (mkConfig [namedPin [97] [66] 0 true, namedPin [98] [98] 1 true])
        { w := ⟨[], []⟩, pullUpEnabled := false, pins := [] }
        [namedPin [97] [66] 0 true, namedPin [98] [98] 1 true]).2.w.frames =
      [setFrame 0xf1 7 0, setFrame 0x85 1 1, setFrame 0x5c 0 0, setFrame 0x93 0 1,
       setFrame 0x85 1 1, setFrame 0x5c 1 0, setFrame 0x93 1 1] ∧
    (initPins (strict 0) (mkConfig [namedPin [97] [66] 0 true, namedPin [98] [98] 1 true])
        { w := ⟨[], []⟩, pullUpEnabled := false, pins := [] }
        [namedPin [97] [66] 0 true, namedPin [98] [98] 1 true]).2.w.frames.count enableFrame
      = 1 :=
  ⟨by decide, by decide,
   (C4_enable_once_before_wpu (strict 0)
      (mkConfig [namedPin [97] [66] 0 true, namedPin [98] [98] 1 true]) [] _ rfl).2.1⟩

theorem initPins_append_ok {σ : Type} (env : Env σ) (cfg : Config)
    (pre rest : List PinConfig) :
    ∀ s s1 : InitState σ, initPins env cfg s pre = (none, s1) →
      initPins env cfg s (pre ++ rest) = initPins env cfg s1 rest := by
  induction pre with
  | nil =>
    intro s s1 h
    simp only [initPins] at h
    cases h
    rfl
  | cons c cs ih =>
    intro s s1 h
    simp only [initPins, List.cons_append] at h ⊢
    split at h
    · cases h
    · rename_i s2 hs2
      exact ih s2 s1 h

theorem initPin_pullUp_rejected {σ : Type} (env : Env σ) (cfg : Config) (s : InitState σ)
    (c : PinConfig) (d : σ)
    (hreg : env.register s.w.dev (cfg.Prefix ++ [95] ++ c.Name) c.Help c.Labels = some d)
    (hpull : c.PullUp = true) (hport : portIndex c.Port ≠ 1) :
    (initPin env cfg s c).1 = some (RunResult.returned (some Error.configError)) ∧
      (initPin env cfg s c).2.w.frames = s.w.frames := by
  have h2 : (portIndex c.Port != 1) = true := by simpa using hport
  unfold initPin
  simp only [Nat.not_lt_zero, if_false, hreg]
  by_cases ha : isPinAllowed (portIndex c.Port) c.Pin = true
  · simp [ha, pullUp, hpull, h2]
  · simp [ha]

/-- C5, as the code has it. Let `Run` find and open its board, let its
initialisation loop set up the pins before `c`, and let the registration of the
gauge of `c` (`prometheus.MustRegister`, called before the pin checks) not panic.
If `c` requests pull-up and its port index is not 1, then `Run` returns the
configuration error, and the frames written in the whole run are exactly those
written for the pins before `c`: no frame is written for `c`, whatever the
transport does. -/
theorem C5_pullup_wrong_port {σ : Type} (env : Env σ) (cfg : Config) (fuel : Nat)
    (d0 d1 d : σ) (pre post : List PinConfig) (c : PinConfig) (s1 : InitState σ)
    (hfind : env.find d0 cfg.Bus cfg.Device = true)
    (hopen : env.openDev d0 = (d1, none))
    (hpins : cfg.Pins = pre ++ c :: post)
    (hpre : initPins env cfg { w := ⟨d1, []⟩, pullUpEnabled := false, pins := [] } pre
      = (none, s1))
    (hreg : env.register s1.w.dev (cfg.Prefix ++ [95] ++ c.Name) c.Help c.Labels = some d)
    (hpull : c.PullUp = true) (hport : portIndex c.Port ≠ 1) :
    (Run env cfg fuel d0).1 = RunResult.returned (some Error.configError) ∧
      (Run env cfg fuel d0).2.1.frames = s1.w.frames := by
  have hc := initPin_pullUp_rejected env cfg s1 c d hreg hpull hport
  have happ := initPins_append_ok env cfg pre (c :: post) _ s1 hpre
  unfold Run
  simp only [hfind, Bool.not_true, Bool.false_eq_true, if_false, hopen, hpins, happ, initPins]
  rcases hi : initPin env cfg s1 c with ⟨r, s2⟩
  rw [hi] at hc
  simp only at hc
  rw [hc.1]
  simp [hc.2]

/-- C5 as the code has it, run on an answering board whose registry refuses
duplicate names, with pins "a" = B0 (no pull-up) and "b" = A1 (pull-up): `Run`
returns the configuration error having written only the two frames of B0. -/
theorem C5_pullup_wrong_port_witness :
    (Run (strict 0) (mkConfig [namedPin [97] [66] 0 false, namedPin [98] [65] 1 true]) 3 []).1
        = RunResult.returned (some Error.configError) ∧
      (Run (strict 0) (mkConfig [namedPin [97] [66] 0 false, namedPin [98] [65] 1 true])
          3 []).2.1.frames
        = [setFrame 0x5c 0 0, setFrame 0x93 0 1] :=
  C5_pullup_wrong_port (strict 0)
    (mkConfig [namedPin [97] [66] 0 false, namedPin [98] [65] 1 true]) 3
    [] [] [[105, 111, 98, 111, 97, 114, 100, 95, 97], [105, 111, 98, 111, 97, 114, 100, 95, 98]]
    [namedPin [97] [66] 0 false] [] (namedPin [98] [65] 1 true)
    { w := ⟨[[105, 111, 98, 111, 97, 114, 100, 95, 97]], [setFrame 0x5c 0 0, setFrame 0x93 0 1]⟩,
      pullUpEnabled := false, pins := [⟨1, 0, false, 0⟩] }
    rfl rfl rfl rfl rfl rfl (by decide)

/-- C5 as stated fails. Pins B0 (no pull-up) and A1 (pull-up) carry the same name
"x" and the registry refuses duplicate names. The initialisation loop sets up
B0 and reaches A1, which requests pull-up on port index 0; `Run` does not return
the configuration error: `MustRegister` panics before the pull-up check. -/
theorem C5_pullup_wrong_port_counterexample :
    (initPins (strict 0) (mkConfig [namedPin [120] [66] 0 false, namedPin [120] [65] 1 true])
        { w := ⟨[], []⟩, pullUpEnabled := false, pins := [] }
        [namedPin [120] [66] 0 false]).1 = none ∧
    (namedPin [120] [65] 1 true).PullUp = true ∧
    portIndex (namedPin [120] [65] 1 true).Port ≠ 1 ∧
    (Run (strict 0) (mkConfig [namedPin [120] [66] 0 false, namedPin [120] [65] 1 true])
        3 []).1 = RunResult.panicked ∧
    (Run (strict 0) (mkConfig [namedPin [120] [66] 0 false, namedPin [120] [65] 1 true])
        3 []).1 ≠ RunResult.returned (some Error.configError) := by
  refine ⟨by decide, rfl, by decide, by decide, by decide⟩

end Ioboard

/-! ## The outcome channel -/

namespace Utils

/-- A report made while no receiver is blocked in `Result` is dropped: the channel
is left as it was, whether or not a value was delivered before. -/
theorem Error_dropped (e : ActionResult) (err : Err) (hr : e.receiving = false) :
    e.Error err = e ∧ e.Success = e := by
  simp [ActionResult.Error, ActionResult.Success, hr]

/-- A report made while the receiver is blocked in `Result` is delivered, and the
receiver is no longer blocked. -/
theorem Error_delivered (e : ActionResult) (err : Err) (hr : e.receiving = true) :
    e.Error err = { receiving := false, got := some err } := by
  simp [ActionResult.Error, hr]

/-- C10, the code at a failing input. An exporter reports error 1 before `main`
has reached `Result`; `main` then blocks in `Result`, and the signal handler
reports success. The first reported outcome is error 1, but it was dropped and
`Result` returns `nil`. With the first report alone, `Result` is still blocked. -/
theorem C10_first_report_dropped :
    firstReported [Call.error (Err.other 1), Call.result, Call.success] = some (Err.other 1) ∧
    (run [Call.error (Err.other 1), Call.result, Call.success]).Result = some none ∧
    (run [Call.error (Err.other 1), Call.result]).Result = none := by
  decide

end Utils
